import Mathlib

/-!
A verification development for `wordInGemini.py`: a batch pipeline that
extracts unique German words from a text file, filters out words already
present in a SQLite database, queries a translation model per word with a
bounded retry loop, and emits SQL INSERT statements.

The Python source is shallowly embedded: pure functions become Lean
functions; file and database I/O become explicit inputs (`Option` for a
file that may be missing, `Option (List String)` for a database whose
`words` table may be absent); the per-word retry loop becomes a function
over an abstract stream of attempt outcomes; counters record the writes the
script performs on its log files.
-/

/-! ## Configuration constants (lines 12-13 of the source) -/

def MAX_RETRIES : Nat := 5

def RETRY_DELAY_SECONDS : Nat := 5

/-! ## JSON values and Python-level helpers

`JValue` models a parsed JSON document (the result of `json.loads` on the
model output).  A Python expression of the form `d.get(k)` yields `None`
both when the key is missing and when it is bound to JSON null, so Python
run-time values derived from a `JValue` are modelled as `Option JValue`
with `none` playing the role of Python `None` and the `JValue` payload
never being `JValue.null` at the outermost level.  Numbers are modelled as
integers: the script never computes with them.
-/

inductive JValue where
  | null : JValue
  | bool : Bool → JValue
  | num : Int → JValue
  | str : String → JValue
  | arr : List JValue → JValue
  | obj : List (String × JValue) → JValue

/-- Raw lookup of a key in a JSON object's field list (first binding wins,
as in a parsed JSON document, whose keys are distinct). -/
def lookupField : List (String × JValue) → String → Option JValue
  | [], _ => none
  | (k, v) :: rest, key => if k = key then some v else lookupField rest key

/-- A JSON value as the Python object it parses to: JSON null is Python
`None`. -/
def toPy : JValue → Option JValue
  | JValue.null => none
  | v => some v

/-- `d.get(key)` on a parsed JSON object: `None` when the key is missing or
bound to null. -/
def pyGetField (fields : List (String × JValue)) (key : String) : Option JValue :=
  (lookupField fields key).bind toPy

/-- Python truthiness of a parsed JSON value. -/
def pyTruthy : JValue → Bool
  | JValue.null => false
  | JValue.bool b => b
  | JValue.num n => n != 0
  | JValue.str s => s != ""
  | JValue.arr xs => !xs.isEmpty
  | JValue.obj fs => !fs.isEmpty

/-- Python truthiness of a possibly-`None` value. -/
def pyTruthyOpt : Option JValue → Bool
  | none => false
  | some v => pyTruthy v

/-- Iterating a Python value with `for`: lists yield their elements,
strings their one-character substrings, dicts their keys; `None`, numbers
and booleans raise `TypeError` (`none` here). -/
def pyIter : Option JValue → Option (List JValue)
  | some (JValue.arr xs) => some xs
  | some (JValue.str s) => some (s.data.map (fun c => JValue.str (String.mk [c])))
  | some (JValue.obj fs) => some (fs.map (fun p => JValue.str p.1))
  | _ => none

/-! ## Python `str.lower` on the repertoire in scope

`str.lower` is modelled on ASCII letters and the German uppercase umlauts,
the characters this pipeline's inputs and the regex class use; other
characters are left unchanged, as Python leaves unchanged everything the
script's letter class can match. -/

def pyLowerChar (c : Char) : Char :=
  if 65 ≤ c.toNat ∧ c.toNat ≤ 90 then Char.ofNat (c.toNat + 32)
  else if c = 'Ä' then 'ä'
  else if c = 'Ö' then 'ö'
  else if c = 'Ü' then 'ü'
  else c

def pyLower (s : String) : String :=
  String.mk (s.data.map pyLowerChar)

/-! ## Word extraction (`read_and_extract_words_from_text_file`, lines 21-35)

The regex `\b[a-zäöüßA-ZÄÖÜ]+\b` over the lowered text: a match is a
maximal run of word characters (`\w`) all of which belong to the letter
class — a boundary `\b` exists only where a word character meets a
non-word character or the ends of the string, so a run containing a digit,
an underscore or a letter outside the class yields no match at all.
Python's Unicode `\w` is modelled on ASCII alphanumerics, the underscore
and the German letters of the class, the repertoire these inputs use. -/

/-- The regex character class `[a-zäöüßA-ZÄÖÜ]`. -/
def isClassChar (c : Char) : Bool :=
  (97 ≤ c.toNat && c.toNat ≤ 122) || (65 ≤ c.toNat && c.toNat ≤ 90) ||
    (c == 'ä' || c == 'ö' || c == 'ü' || c == 'ß' || c == 'Ä' || c == 'Ö' || c == 'Ü')

/-- Python regex `\w`, on the repertoire in scope. -/
def isPyWordChar (c : Char) : Bool :=
  (48 ≤ c.toNat && c.toNat ≤ 57) || (97 ≤ c.toNat && c.toNat ≤ 122) ||
    (65 ≤ c.toNat && c.toNat ≤ 90) || c == '_' ||
    (c == 'ä' || c == 'ö' || c == 'ü' || c == 'ß' || c == 'Ä' || c == 'Ö' || c == 'Ü')

/-- The maximal runs of word characters of a character list; the fuel
argument (at least the list's length) makes the recursion structural so
that the definition evaluates inside the kernel. -/
def wordRunsF : Nat → List Char → List (List Char)
  | 0, _ => []
  | _, [] => []
  | fuel + 1, c :: cs =>
    if isPyWordChar c then
      (c :: cs.takeWhile isPyWordChar) :: wordRunsF fuel (cs.dropWhile isPyWordChar)
    else
      wordRunsF fuel cs

/-- The maximal runs of word characters of a character list. -/
def wordRuns (l : List Char) : List (List Char) := wordRunsF l.length l

/-- `re.findall(r'\b[a-zäöüßA-ZÄÖÜ]+\b', text)`: the maximal word-character
runs consisting entirely of class letters. -/
def findallClassWords (text : String) : List String :=
  ((wordRuns text.data).filter (fun r => r.all isClassChar)).map (fun r => String.mk r)

/-- A strict lexicographic comparison of character lists by code point,
as Python compares strings. -/
def lexLt : List Char → List Char → Bool
  | [], [] => false
  | [], _ :: _ => true
  | _ :: _, [] => false
  | a :: as, b :: bs => if a < b then true else if b < a then false else lexLt as bs

/-- Non-strict string comparison used as the sort order (`a ≤ b` iff not
`b < a`). -/
def strLeB (a b : String) : Bool := !(lexLt b.data a.data)

/-- The sort order on strings as a proposition. -/
def StrLe (a b : String) : Prop := strLeB a b = true

instance : DecidableRel StrLe := fun a b => by unfold StrLe; infer_instance

/-- Python `sorted` on a list of strings. -/
def pySortedStr (l : List String) : List String := l.insertionSort StrLe

/-- `read_and_extract_words_from_text_file` (lines 21-35).  The file system
is an explicit input: `none` is a missing file or any read error, in which
case the function returns the empty list; `some text` is the file's
content.  On content, the source computes
`sorted(set(re.findall(pattern, text.lower())))`. -/
def read_and_extract_words_from_text_file (file : Option String) : List String :=
  match file with
  | none => []
  | some text => pySortedStr (findallClassWords (pyLower text)).dedup

/-! ## Database filtering (`get_new_words_not_in_db`, lines 37-67)

The database is an explicit input: `none` models the
`sqlite3.OperationalError` raised when the `words` table is missing (the
source then returns the whole input list); `some rows` models the distinct
`queried_word` values of the `words` table. -/

def get_new_words_not_in_db (words_from_text : List String)
    (db : Option (List String)) : List String :=
  if words_from_text.isEmpty then []
  else
    match db with
    | none => words_from_text
    | some rows =>
      let existing_queried_words := rows.map pyLower
      words_from_text.filter (fun word => !(existing_queried_words.contains (pyLower word)))

/-! ## SQL string escaping (`escape_sql_string`, lines 111-115) and Python
string rendering

`str(value)` on values parsed from JSON is modelled by `pyStr`: a string
renders as itself, every other value by its `repr` (`pyRepr`).
`json.dumps`'s `\uXXXX` escapes for non-ASCII text and control characters
are simplified away, not being observable in this development. -/

/-- Python `repr` of a string: single quotes, double quotes when the text
holds a single quote and no double quote. -/
def pyStrRepr (s : String) : String :=
  if s.data.contains '\'' && !(s.data.contains '"') then "\"" ++ s ++ "\""
  else "'" ++ String.mk (s.data.flatMap (fun c => if c = '\'' then ['\\', '\''] else [c])) ++ "'"

mutual

/-- Python `repr` of a parsed JSON value. -/
def pyRepr : JValue → String
  | JValue.null => "None"
  | JValue.bool b => if b then "True" else "False"
  | JValue.num n => toString n
  | JValue.str s => pyStrRepr s
  | JValue.arr xs => "[" ++ pyReprList xs ++ "]"
  | JValue.obj fs => "\x7b" ++ pyReprFields fs ++ "\x7d"

/-- The comma-joined `repr`s of a list's elements. -/
def pyReprList : List JValue → String
  | [] => ""
  | x :: rest => pyRepr x ++ (if rest.isEmpty then "" else ", ") ++ pyReprList rest

/-- The comma-joined `key: value` pairs of a dict's `repr`. -/
def pyReprFields : List (String × JValue) → String
  | [] => ""
  | (k, v) :: rest =>
    pyStrRepr k ++ ": " ++ pyRepr v ++ (if rest.isEmpty then "" else ", ") ++ pyReprFields rest

end

/-- Python `str` of a parsed JSON value. -/
def pyStr : JValue → String
  | JValue.str s => s
  | v => pyRepr v

/-- JSON string escaping (backslash and double quote; the source's values
never make other escapes observable). -/
def jsonEscape (s : String) : String :=
  String.mk (s.data.flatMap (fun c =>
    if c = '\\' then ['\\', '\\'] else if c = '"' then ['\\', '"'] else [c]))

mutual

/-- `json.dumps` of a parsed JSON value. -/
def jdumpVal : JValue → String
  | JValue.null => "null"
  | JValue.bool b => if b then "true" else "false"
  | JValue.num n => toString n
  | JValue.str s => "\"" ++ jsonEscape s ++ "\""
  | JValue.arr xs => "[" ++ jdumpList xs ++ "]"
  | JValue.obj fs => "\x7b" ++ jdumpFields fs ++ "\x7d"

/-- The comma-joined dumps of a list's elements. -/
def jdumpList : List JValue → String
  | [] => ""
  | x :: rest => jdumpVal x ++ (if rest.isEmpty then "" else ", ") ++ jdumpList rest

/-- The comma-joined `"key": value` pairs of an object's dump. -/
def jdumpFields : List (String × JValue) → String
  | [] => ""
  | (k, v) :: rest =>
    "\"" ++ jsonEscape k ++ "\": " ++ jdumpVal v ++ (if rest.isEmpty then "" else ", ") ++
      jdumpFields rest

end

/-- `json.dumps` of a possibly-`None` Python value (`json.dumps(None)` is
`"null"`). -/
def jdump : Option JValue → String
  | none => "null"
  | some v => jdumpVal v

/-- Python `str.replace(pat, rep)` for a non-empty pattern: leftmost,
non-overlapping (fuelled; the fuel is seeded with the text's length). -/
def replaceF (pat rep : List Char) : Nat → List Char → List Char
  | 0, s => s
  | _ + 1, [] => []
  | fuel + 1, c :: rest =>
    if pat.isPrefixOf (c :: rest) then
      rep ++ replaceF pat rep fuel ((c :: rest).drop pat.length)
    else
      c :: replaceF pat rep fuel rest

/-- Python `str.replace` (for the empty pattern the text is returned
unchanged; the source only replaces a single quote). -/
def pyReplace (s pat rep : String) : String :=
  match pat.data with
  | [] => s
  | p :: ps => String.mk (replaceF (p :: ps) rep.data s.data.length s.data)

/-- `escape_sql_string` (lines 111-115): SQL `NULL` for Python `None`,
otherwise the value's `str` form in single quotes with embedded single
quotes doubled. -/
def escape_sql_string (value : Option JValue) : String :=
  match value with
  | none => "NULL"
  | some v => "'" ++ pyReplace (pyStr v) "'" "''" ++ "'"

/-! ## Example-text markup (`transform_example_text`, lines 117-121)

`re.sub(r'\|([^|]+)\|', r'<em>\1</em>', text)`: scanning left to right, a
match is a pipe, one or more non-pipe characters, and a closing pipe; the
span is rewritten to `<em>…</em>` and scanning resumes after it.  A pipe
with no closing pipe, or two adjacent pipes, is left in place. -/

def transformCharsF : Nat → List Char → List Char
  | 0, s => s
  | _ + 1, [] => []
  | fuel + 1, c :: rest =>
    if c = '|' then
      let gap := rest.takeWhile (fun d => d ≠ '|')
      match rest.dropWhile (fun d => d ≠ '|') with
      | '|' :: tail =>
        if gap.isEmpty then '|' :: transformCharsF fuel rest
        else "<em>".data ++ gap ++ "</em>".data ++ transformCharsF fuel tail
      | _ => c :: rest
    else
      c :: transformCharsF fuel rest

/-- The body of `transform_example_text` on a string. -/
def transformString (s : String) : String :=
  String.mk (transformCharsF s.data.length s.data)

/-- `transform_example_text` (lines 117-121): `None` passes through, text
is rewritten. -/
def transform_example_text : Option String → Option String
  | none => none
  | some s => some (transformString s)

/-! ## SQL generation (`extract_and_generate_sql_for_word`, lines 123-199)

The global `sql_insert_statements` accumulator is modelled by threading the
list of statements the call appends; `log_error` calls are counted.  A
Python exception raised mid-way (a `.get` on a non-dict, iterating a
non-iterable, `re.sub` on a non-string) leaves the statements already
appended in place and lands in the function's `except` clause, which logs
once and returns `False`; the `Bool` of the generator helpers is `false`
exactly when such an exception escapes the loop body. -/

structure GenState where
  stmts : List String
  logs : Nat

/-- What one call of `extract_and_generate_sql_for_word` does: the
statements it appended to `sql_insert_statements`, the number of
`log_error` entries it wrote, and its return value. -/
structure SqlGenResult where
  stmts : List String
  logs : Nat
  ok : Bool

/-- The f-string of lines 149-152 (arguments already escaped). -/
def wordInsertStmt (qw bf pt info : String) : String :=
  "INSERT OR IGNORE INTO words (queried_word, base_form_json, primary_type, info_json) VALUES (" ++
    qw ++ ", " ++ bf ++ ", " ++ pt ++ ", " ++ info ++ ");"

/-- The f-string of lines 165-168 (arguments already escaped). -/
def transInsertStmt (word_id_subquery meaning addinfo mtype : String) : String :=
  "INSERT INTO word_translations (word_id, meaning, additional_info, meta_type) VALUES (" ++
    word_id_subquery ++ ", " ++ meaning ++ ", " ++ addinfo ++ ", " ++ mtype ++ ");"

/-- The correlated subquery of lines 170-176 (arguments already escaped). -/
def translationIdSubquery (word_id_subquery meaning addinfo mtype : String) : String :=
  "(SELECT translation_id FROM word_translations WHERE word_id = " ++ word_id_subquery ++
    " AND meaning = " ++ meaning ++
    " AND COALESCE(additional_info, 'NULL_MARKER') = COALESCE(" ++ addinfo ++ ", 'NULL_MARKER')" ++
    " AND COALESCE(meta_type, 'NULL_MARKER') = COALESCE(" ++ mtype ++ ", 'NULL_MARKER')" ++
    " ORDER BY translation_id DESC LIMIT 1)"

/-- The f-string of lines 186-189 (arguments already escaped). -/
def exampleInsertStmt (tid src tgt : String) : String :=
  "INSERT INTO translation_examples (translation_id, source_text, target_text) VALUES (" ++
    tid ++ ", " ++ src ++ ", " ++ tgt ++ ");"

/-- The `for ex_data in trans_data.get('examples', [])` loop (lines
178-189).  An example whose truthy source or target is not a string makes
`re.sub` raise `TypeError`, and `.get` on a non-dict raises
`AttributeError`: both escape to the outer handler (`false`). -/
def genExamples (translation_id_subquery : String) : GenState → List JValue → GenState × Bool
  | st, [] => (st, true)
  | st, ex_data :: rest =>
    match ex_data with
    | JValue.obj gs =>
      let source_text_raw := pyGetField gs "source"
      let target_text_raw := pyGetField gs "target"
      if pyTruthyOpt source_text_raw && pyTruthyOpt target_text_raw then
        match source_text_raw, target_text_raw with
        | some (JValue.str s), some (JValue.str t) =>
          genExamples translation_id_subquery
            ⟨st.stmts ++ [exampleInsertStmt translation_id_subquery
                (escape_sql_string (some (JValue.str (transformString s))))
                (escape_sql_string (some (JValue.str (transformString t))))],
              st.logs⟩ rest
        | _, _ => (st, false)
      else
        genExamples translation_id_subquery st rest
    | _ => (st, false)

/-- The `for trans_data in all_translations_from_model` loop (lines
156-189).  A missing or null `meaning` logs a skip entry and continues
(lines 161-163); otherwise the translation `INSERT` is appended and the
examples processed. -/
def genTranslations (word_id_subquery original_queried_word : String) :
    GenState → List JValue → GenState × Bool
  | st, [] => (st, true)
  | st, trans_data :: rest =>
    match trans_data with
    | JValue.obj fs =>
      let meaning := pyGetField fs "meaning"
      let additional_info_trans := pyGetField fs "additionalInfo"
      let meta_type_trans := pyGetField fs "type"
      match meaning with
      | none =>
        genTranslations word_id_subquery original_queried_word ⟨st.stmts, st.logs + 1⟩ rest
      | some m =>
        let st1 : GenState :=
          ⟨st.stmts ++ [transInsertStmt word_id_subquery (escape_sql_string (some m))
              (escape_sql_string additional_info_trans) (escape_sql_string meta_type_trans)],
            st.logs⟩
        let tid := translationIdSubquery word_id_subquery (escape_sql_string (some m))
            (escape_sql_string additional_info_trans) (escape_sql_string meta_type_trans)
        match pyIter (match lookupField fs "examples" with
                      | none => some (JValue.arr [])
                      | some v => toPy v) with
        | none => (st1, false)
        | some exs =>
          match genExamples tid st1 exs with
          | (st2, true) => genTranslations word_id_subquery original_queried_word st2 rest
          | (st2, false) => (st2, false)
    | _ => (st, false)

/-- `extract_and_generate_sql_for_word` (lines 123-199).  A missing
`word_info` key raises `KeyError` (logged, `False`); indexing a non-dict
response or `.get` on a non-dict `word_info` raises and is logged by the
generic handler; the `elif 'usage' …` guard's `not db_primary_type` is
vacuously true where it is evaluated, `db_primary_type` still being
`None` there. -/
def extract_and_generate_sql_for_word (assistant_content_json : JValue)
    (original_queried_word : String) : SqlGenResult :=
  match assistant_content_json with
  | JValue.obj fields =>
    match lookupField fields "word_info" with
    | none => ⟨[], 1, false⟩
    | some word_info =>
      match word_info with
      | JValue.obj wf =>
        let all_translations_py : Option JValue :=
          match lookupField fields "translations" with
          | none => some (JValue.arr [])
          | some v => toPy v
        let db_base_form_json_str := jdump (pyGetField wf "base_form")
        let db_info_json_str := jdump (pyGetField wf "additional_info")
        let base_form_content := pyGetField wf "base_form"
        let db_primary_type : Option JValue :=
          match base_form_content with
          | some (JValue.obj bf) =>
            let types_present := bf.map Prod.fst
            if !types_present.isEmpty then
              some (JValue.str (String.intercalate "/" (pySortedStr types_present)))
            else none
          | some (JValue.str _) =>
            match pyGetField wf "additional_info" with
            | some (JValue.obj ai) =>
              if (lookupField ai "type").isSome then (lookupField ai "type").bind toPy
              else if (lookupField ai "usage").isSome then (lookupField ai "usage").bind toPy
              else none
            | _ => none
          | _ => none
        let db_primary_type :=
          if pyTruthyOpt db_primary_type then db_primary_type
          else some (JValue.str "unknown")
        let wordStmt := wordInsertStmt
          (escape_sql_string (some (JValue.str original_queried_word)))
          (escape_sql_string (some (JValue.str db_base_form_json_str)))
          (escape_sql_string db_primary_type)
          (escape_sql_string (some (JValue.str db_info_json_str)))
        let word_id_subquery := "(SELECT word_id FROM words WHERE queried_word = " ++
          escape_sql_string (some (JValue.str original_queried_word)) ++ ")"
        match pyIter all_translations_py with
        | none => ⟨[wordStmt], 1, false⟩
        | some all_translations =>
          match genTranslations word_id_subquery original_queried_word
              ⟨[wordStmt], 0⟩ all_translations with
          | (st, true) => ⟨st.stmts, st.logs, true⟩
          | (st, false) => ⟨st.stmts, st.logs + 1, false⟩
      | _ => ⟨[], 1, false⟩
  | _ => ⟨[], 1, false⟩

/-! ## The per-word retry loop (`process_word_with_retries`, lines 250-303)

One attempt's interaction with the model and the parser is abstracted into
an outcome: the streamed output was empty (line 258), the parser returned
`None` (line 287), an exception was raised anywhere in the `try` body
(line 295), or a JSON document was parsed successfully (line 269), in
which case the source hands it to `extract_and_generate_sql_for_word`.
`outcomes n` is attempt `n`'s outcome (attempts are numbered from 1, as in
the source).  The result records the return value, how many attempts ran,
how many `log_error` entries were written (the loop's own and those of SQL
generation, which share the error-log file), how many entries were
appended to the successful-responses log, the total seconds slept, and how
many per-attempt failure messages were printed (lines 259, 288, 296). -/

inductive AttemptOutcome where
  | empty : AttemptOutcome
  | parseFailure : AttemptOutcome
  | exception : AttemptOutcome
  | parsed : JValue → AttemptOutcome

/-- Outcomes that make the loop sleep and retry (or log and fail on the
last attempt). -/
def retryable : AttemptOutcome → Bool
  | AttemptOutcome.empty => true
  | AttemptOutcome.parseFailure => true
  | AttemptOutcome.exception => true
  | AttemptOutcome.parsed _ => false

structure RunResult where
  success : Bool
  attempts : Nat
  errorLogs : Nat
  successLogs : Nat
  sleptSeconds : Nat
  failurePrints : Nat
deriving DecidableEq

/-- The body of `for attempt in range(1, MAX_RETRIES + 1)` (lines
252-302).  `att` attempts have already run; the fuel counts the loop
iterations that remain, so the loop's own exit (line 303, unreachable when
the fuel is `MAX_RETRIES` and positive) returns `False` with the counters
as they stand.  The success path also appends one entry to the
successful-responses log (lines 272-282; a failure of that very write only
prints a warning and is not modelled). -/
def processWordLoop (outcomes : Nat → AttemptOutcome) (original_word_to_query : String) :
    Nat → Nat → Nat → Nat → Nat → Nat → RunResult
  | 0, att, errs, succ, slept, fp => ⟨false, att, errs, succ, slept, fp⟩
  | fuel + 1, att, errs, succ, slept, fp =>
    let attempt := att + 1
    match outcomes attempt with
    | AttemptOutcome.empty =>
      if attempt < MAX_RETRIES then
        processWordLoop outcomes original_word_to_query fuel attempt errs succ
          (slept + RETRY_DELAY_SECONDS) (fp + 1)
      else ⟨false, attempt, errs + 1, succ, slept, fp + 1⟩
    | AttemptOutcome.parseFailure =>
      if attempt < MAX_RETRIES then
        processWordLoop outcomes original_word_to_query fuel attempt errs succ
          (slept + RETRY_DELAY_SECONDS) (fp + 1)
      else ⟨false, attempt, errs + 1, succ, slept, fp + 1⟩
    | AttemptOutcome.exception =>
      if attempt < MAX_RETRIES then
        processWordLoop outcomes original_word_to_query fuel attempt errs succ
          (slept + RETRY_DELAY_SECONDS) (fp + 1)
      else ⟨false, attempt, errs + 1, succ, slept, fp + 1⟩
    | AttemptOutcome.parsed j =>
      let r := extract_and_generate_sql_for_word j original_word_to_query
      if r.ok then ⟨true, attempt, errs + r.logs, succ + 1, slept, fp⟩
      else ⟨false, attempt, errs + r.logs, succ, slept, fp⟩

/-- `process_word_with_retries` (lines 250-303). -/
def process_word_with_retries (outcomes : Nat → AttemptOutcome)
    (original_word_to_query : String) : RunResult :=
  processWordLoop outcomes original_word_to_query MAX_RETRIES 0 0 0 0 0

/-! ## The main loop's periodic pause (lines 360-372)

After processing the word at zero-based index `i`, the script pauses for
`RETRY_DELAY_SECONDS` exactly when
`(i + 1) % 10 == 0 and len(words_to_process_query) > 10`. -/

/-- The condition of line 370: `numWords` is `len(words_to_process_query)`
and `i` the zero-based loop index. -/
def mainLoopPauseCond (i numWords : Nat) : Bool :=
  ((i + 1) % 10 == 0) && (numWords > 10)

/-- The one-based indices of the processed words after which the main loop
pauses, for a run over `numWords` words. -/
def pausePositions (numWords : Nat) : List Nat :=
  ((List.range numWords).filter (fun i => mainLoopPauseCond i numWords)).map (fun i => i + 1)

/-! ## Specification-side observations for SQL generation

The claims count the emitted statements by their kind; a statement's kind
is read off its fixed leading keyword sequence. -/

/-- `p` is a prefix of `s` (on the underlying characters). -/
def hasPrefixStr (p s : String) : Bool := p.data.isPrefixOf s.data

/-- A translation object carries a usable meaning: the key is present and
not null. -/
def hasMeaning : JValue → Bool
  | JValue.obj fs => (pyGetField fs "meaning").isSome
  | _ => false

/-- The examples list of a translation object (absent means none). -/
def examplesOf : JValue → List JValue
  | JValue.obj fs =>
    match lookupField fs "examples" with
    | some (JValue.arr xs) => xs
    | _ => []
  | _ => []

/-- A field value that is either absent/null or a string. -/
def isOptStrField : Option JValue → Bool
  | none => true
  | some (JValue.str _) => true
  | _ => false

/-- A well-formed example object: `source` and `target` absent, null or
strings (the shape the data model gives them). -/
def wfExample : JValue → Bool
  | JValue.obj gs =>
    isOptStrField (pyGetField gs "source") && isOptStrField (pyGetField gs "target")
  | _ => false

/-- An example that yields an `INSERT`: source and target both non-empty
strings. -/
def goodExample : JValue → Bool
  | JValue.obj gs =>
    match pyGetField gs "source", pyGetField gs "target" with
    | some (JValue.str s), some (JValue.str t) => (s != "") && (t != "")
    | _, _ => false
  | _ => false

/-- A well-formed translation object: a dict whose `examples` key, when
present, is a list of well-formed examples. -/
def wfTranslation : JValue → Bool
  | JValue.obj fs =>
    match lookupField fs "examples" with
    | none => true
    | some (JValue.arr xs) => xs.all wfExample
    | some _ => false
  | _ => false

/-- The example `INSERT` a good example contributes (junk on other
values, which the generators never produce). -/
def exStmtOf (tid : String) : JValue → String
  | JValue.obj gs =>
    match pyGetField gs "source", pyGetField gs "target" with
    | some (JValue.str s), some (JValue.str t) =>
      exampleInsertStmt tid (escape_sql_string (some (JValue.str (transformString s))))
        (escape_sql_string (some (JValue.str (transformString t))))
    | _, _ => ""
  | _ => ""

/-- The statements one translation object contributes: nothing when its
meaning is missing, otherwise its own `INSERT` followed by one per good
example. -/
def transStmtsOf (word_id_subquery : String) : JValue → List String
  | JValue.obj fs =>
    match pyGetField fs "meaning" with
    | none => []
    | some m =>
      transInsertStmt word_id_subquery (escape_sql_string (some m))
          (escape_sql_string (pyGetField fs "additionalInfo"))
          (escape_sql_string (pyGetField fs "type"))
        :: ((examplesOf (JValue.obj fs)).filter goodExample).map
            (exStmtOf (translationIdSubquery word_id_subquery (escape_sql_string (some m))
              (escape_sql_string (pyGetField fs "additionalInfo"))
              (escape_sql_string (pyGetField fs "type"))))
  | _ => []

/-! ## Helper lemmas: statement kinds -/

lemma isPrefixOf_append_eq {p l : List Char} (r : List Char) (h : p.length ≤ l.length) :
    p.isPrefixOf (l ++ r) = p.isPrefixOf l := by
  induction p generalizing l with
  | nil => simp [List.isPrefixOf]
  | cons a as ih =>
    cases l with
    | nil => simp at h
    | cons b bs =>
      simp only [List.cons_append, List.isPrefixOf, List.append_eq]
      rw [ih (Nat.le_of_succ_le_succ h)]

lemma isPrefixOf_append_true {p l : List Char} (r : List Char) (h : p.isPrefixOf l = true) :
    p.isPrefixOf (l ++ r) = true := by
  induction p generalizing l with
  | nil => simp [List.isPrefixOf]
  | cons a as ih =>
    cases l with
    | nil => simp [List.isPrefixOf] at h
    | cons b bs =>
      simp only [List.isPrefixOf, Bool.and_eq_true] at h ⊢
      exact ⟨h.1, ih h.2⟩

lemma isPrefixOf_append_false {p l : List Char} (r : List Char) (hlen : p.length ≤ l.length)
    (h : p.isPrefixOf l = false) : p.isPrefixOf (l ++ r) = false := by
  rw [isPrefixOf_append_eq r hlen]
  exact h

lemma stmtKind_word (q b p i : String) :
    hasPrefixStr "INSERT OR IGNORE" (wordInsertStmt q b p i) = true
    ∧ hasPrefixStr "INSERT INTO word_translations" (wordInsertStmt q b p i) = false
    ∧ hasPrefixStr "INSERT INTO translation_examples" (wordInsertStmt q b p i) = false := by
  refine ⟨?_, ?_, ?_⟩ <;>
    simp only [hasPrefixStr, wordInsertStmt, String.data_append, List.append_assoc]
  · apply isPrefixOf_append_true
    decide
  · apply isPrefixOf_append_false <;> decide
  · apply isPrefixOf_append_false <;> decide

lemma stmtKind_trans (w m a t : String) :
    hasPrefixStr "INSERT INTO word_translations" (transInsertStmt w m a t) = true
    ∧ hasPrefixStr "INSERT OR IGNORE" (transInsertStmt w m a t) = false
    ∧ hasPrefixStr "INSERT INTO translation_examples" (transInsertStmt w m a t) = false := by
  refine ⟨?_, ?_, ?_⟩ <;>
    simp only [hasPrefixStr, transInsertStmt, String.data_append, List.append_assoc]
  · apply isPrefixOf_append_true
    decide
  · apply isPrefixOf_append_false <;> decide
  · apply isPrefixOf_append_false <;> decide

lemma stmtKind_example (tid s t : String) :
    hasPrefixStr "INSERT INTO translation_examples" (exampleInsertStmt tid s t) = true
    ∧ hasPrefixStr "INSERT OR IGNORE" (exampleInsertStmt tid s t) = false
    ∧ hasPrefixStr "INSERT INTO word_translations" (exampleInsertStmt tid s t) = false := by
  refine ⟨?_, ?_, ?_⟩ <;>
    simp only [hasPrefixStr, exampleInsertStmt, String.data_append, List.append_assoc]
  · apply isPrefixOf_append_true
    decide
  · apply isPrefixOf_append_false <;> decide
  · apply isPrefixOf_append_false <;> decide

lemma goodExample_obj {gs : List (String × JValue)} (h : goodExample (JValue.obj gs) = true) :
    ∃ s t, pyGetField gs "source" = some (JValue.str s)
      ∧ pyGetField gs "target" = some (JValue.str t) ∧ s ≠ "" ∧ t ≠ "" := by
  simp only [goodExample] at h
  rcases hs : pyGetField gs "source" with _ | v
  · rw [hs] at h
    simp at h
  · rcases ht : pyGetField gs "target" with _ | u
    · rw [hs, ht] at h
      cases v <;> simp at h
    · rw [hs, ht] at h
      cases v <;> cases u <;> simp at h
      exact ⟨_, _, rfl, rfl, h.1, h.2⟩

lemma exStmtOf_eval {gs : List (String × JValue)} {s t : String} (tid : String)
    (hs : pyGetField gs "source" = some (JValue.str s))
    (ht : pyGetField gs "target" = some (JValue.str t)) :
    exStmtOf tid (JValue.obj gs) = exampleInsertStmt tid
      (escape_sql_string (some (JValue.str (transformString s))))
      (escape_sql_string (some (JValue.str (transformString t)))) := by
  simp [exStmtOf, hs, ht]

lemma stmtKind_exStmtOf (tid : String) (e : JValue) (h : goodExample e = true) :
    hasPrefixStr "INSERT INTO translation_examples" (exStmtOf tid e) = true
    ∧ hasPrefixStr "INSERT OR IGNORE" (exStmtOf tid e) = false
    ∧ hasPrefixStr "INSERT INTO word_translations" (exStmtOf tid e) = false := by
  cases e with
  | obj gs =>
    obtain ⟨s, t, hs, ht, _, _⟩ := goodExample_obj h
    rw [exStmtOf_eval tid hs ht]
    exact stmtKind_example _ _ _
  | null => simp [goodExample] at h
  | bool b => simp [goodExample] at h
  | num n => simp [goodExample] at h
  | str s => simp [goodExample] at h
  | arr xs => simp [goodExample] at h

lemma isOptStrField_cases {o : Option JValue} (h : isOptStrField o = true) :
    o = none ∨ ∃ s, o = some (JValue.str s) := by
  match o with
  | none => exact Or.inl rfl
  | some (JValue.str s) => exact Or.inr ⟨s, rfl⟩
  | some JValue.null => simp [isOptStrField] at h
  | some (JValue.bool b) => simp [isOptStrField] at h
  | some (JValue.num n) => simp [isOptStrField] at h
  | some (JValue.arr xs) => simp [isOptStrField] at h
  | some (JValue.obj fs) => simp [isOptStrField] at h

lemma genExamples_spec (tid : String) (exs : List JValue) :
    ∀ st : GenState, exs.all wfExample = true →
      genExamples tid st exs
        = (⟨st.stmts ++ (exs.filter goodExample).map (exStmtOf tid), st.logs⟩, true) := by
  induction exs with
  | nil =>
    intro st h
    simp [genExamples]
  | cons e rest ih =>
    intro st h
    simp only [List.all_cons, Bool.and_eq_true] at h
    obtain ⟨he, hrest⟩ := h
    cases e with
    | obj gs =>
      simp only [wfExample, Bool.and_eq_true] at he
      rcases isOptStrField_cases he.1 with hs | ⟨s, hs⟩ <;>
        rcases isOptStrField_cases he.2 with ht | ⟨t, ht⟩
      · have hg : goodExample (JValue.obj gs) = false := by simp [goodExample, hs, ht]
        simp [genExamples, hs, ht, pyTruthyOpt, hg, ih st hrest]
      · have hg : goodExample (JValue.obj gs) = false := by simp [goodExample, hs, ht]
        simp [genExamples, hs, ht, pyTruthyOpt, hg, ih st hrest]
      · have hg : goodExample (JValue.obj gs) = false := by simp [goodExample, hs, ht]
        simp [genExamples, hs, ht, pyTruthyOpt, hg, ih st hrest]
      · by_cases hst : ((s != "") && (t != "")) = true
        · have hg : goodExample (JValue.obj gs) = true := by
            simp only [goodExample, hs, ht]
            exact hst
          simp only [genExamples, hs, ht, pyTruthyOpt, pyTruthy, hst, if_true]
          rw [ih _ hrest]
          simp [hg, exStmtOf_eval tid hs ht]
        · rw [Bool.not_eq_true] at hst
          have hg : goodExample (JValue.obj gs) = false := by
            simp only [goodExample, hs, ht]
            exact hst
          simp [genExamples, hs, ht, pyTruthyOpt, pyTruthy, hst, hg, ih st hrest]
    | null => simp [wfExample] at he
    | bool b => simp [wfExample] at he
    | num n => simp [wfExample] at he
    | str s => simp [wfExample] at he
    | arr xs => simp [wfExample] at he

lemma wfTranslation_obj {fs : List (String × JValue)}
    (h : wfTranslation (JValue.obj fs) = true) :
    lookupField fs "examples" = none
    ∨ ∃ xs, lookupField fs "examples" = some (JValue.arr xs) ∧ xs.all wfExample = true := by
  simp only [wfTranslation] at h
  rcases hx : lookupField fs "examples" with _ | v
  · exact Or.inl rfl
  · rw [hx] at h
    cases v with
    | arr xs => exact Or.inr ⟨xs, rfl, h⟩
    | null => simp at h
    | bool b => simp at h
    | num n => simp at h
    | str s => simp at h
    | obj gs => simp at h

lemma genTranslations_spec (wsub w : String) (ts : List JValue) :
    ∀ st : GenState, ts.all wfTranslation = true →
      genTranslations wsub w st ts
        = (⟨st.stmts ++ (ts.map (transStmtsOf wsub)).flatten,
            st.logs + ts.countP (fun t => !(hasMeaning t))⟩, true) := by
  induction ts with
  | nil =>
    intro st h
    simp [genTranslations]
  | cons t rest ih =>
    intro st h
    simp only [List.all_cons, Bool.and_eq_true] at h
    obtain ⟨ht, hrest⟩ := h
    cases t with
    | obj fs =>
      rcases hm : pyGetField fs "meaning" with _ | m
      · have hM : hasMeaning (JValue.obj fs) = false := by simp [hasMeaning, hm]
        have hT : transStmtsOf wsub (JValue.obj fs) = [] := by simp [transStmtsOf, hm]
        simp only [genTranslations, hm]
        rw [ih _ hrest]
        simp [hT, hM, List.countP_cons]
        try omega
      · have hM : hasMeaning (JValue.obj fs) = true := by simp [hasMeaning, hm]
        rcases wfTranslation_obj ht with hx | ⟨xs, hx, hxs⟩
        · have hE : examplesOf (JValue.obj fs) = [] := by simp [examplesOf, hx]
          have hT : transStmtsOf wsub (JValue.obj fs)
              = [transInsertStmt wsub (escape_sql_string (some m))
                  (escape_sql_string (pyGetField fs "additionalInfo"))
                  (escape_sql_string (pyGetField fs "type"))] := by
            simp [transStmtsOf, hm, hE]
          simp only [genTranslations, hm, hx, pyIter, genExamples]
          rw [ih _ hrest]
          simp [hT, hM, List.countP_cons, List.append_assoc]
          try omega
        · have hE : examplesOf (JValue.obj fs) = xs := by simp [examplesOf, hx]
          have hT : transStmtsOf wsub (JValue.obj fs)
              = transInsertStmt wsub (escape_sql_string (some m))
                  (escape_sql_string (pyGetField fs "additionalInfo"))
                  (escape_sql_string (pyGetField fs "type"))
                :: (xs.filter goodExample).map
                    (exStmtOf (translationIdSubquery wsub (escape_sql_string (some m))
                      (escape_sql_string (pyGetField fs "additionalInfo"))
                      (escape_sql_string (pyGetField fs "type")))) := by
            simp [transStmtsOf, hm, hE]
          simp only [genTranslations, hm, hx, toPy, pyIter]
          rw [genExamples_spec _ _ _ hxs]
          dsimp only
          rw [ih _ hrest]
          simp [hT, hM, List.countP_cons, List.append_assoc]
          try omega
    | null => simp [wfTranslation] at ht
    | bool b => simp [wfTranslation] at ht
    | num n => simp [wfTranslation] at ht
    | str s => simp [wfTranslation] at ht
    | arr xs => simp [wfTranslation] at ht

lemma countP_map_exStmts_true (tid : String) (p : String → Bool) (xs : List JValue)
    (h : ∀ e ∈ xs, goodExample e = true → p (exStmtOf tid e) = true)
    (hxs : ∀ e ∈ xs, goodExample e = true) :
    ((xs.map (exStmtOf tid)).countP p) = xs.length := by
  rw [← List.length_map xs (exStmtOf tid), List.countP_eq_length]
  intro a ha
  obtain ⟨e, he, rfl⟩ := List.mem_map.mp ha
  exact h e he (hxs e he)

lemma countP_map_exStmts_false (tid : String) (p : String → Bool) (xs : List JValue)
    (h : ∀ e ∈ xs, goodExample e = true → p (exStmtOf tid e) = false)
    (hxs : ∀ e ∈ xs, goodExample e = true) :
    ((xs.map (exStmtOf tid)).countP p) = 0 := by
  rw [List.countP_eq_zero]
  intro a ha
  obtain ⟨e, he, rfl⟩ := List.mem_map.mp ha
  simp [h e he (hxs e he)]

lemma countP_transStmtsOf (wsub : String) (t : JValue) :
    (transStmtsOf wsub t).countP (fun s => hasPrefixStr "INSERT OR IGNORE" s) = 0
    ∧ (transStmtsOf wsub t).countP (fun s => hasPrefixStr "INSERT INTO word_translations" s)
        = (if hasMeaning t then 1 else 0)
    ∧ (transStmtsOf wsub t).countP (fun s => hasPrefixStr "INSERT INTO translation_examples" s)
        = (if hasMeaning t then ((examplesOf t).filter goodExample).length else 0) := by
  cases t with
  | obj fs =>
    rcases hm : pyGetField fs "meaning" with _ | m
    · have hM : hasMeaning (JValue.obj fs) = false := by simp [hasMeaning, hm]
      simp [transStmtsOf, hm, hM]
    · have hM : hasMeaning (JValue.obj fs) = true := by simp [hasMeaning, hm]
      have hgood : ∀ e ∈ (examplesOf (JValue.obj fs)).filter goodExample,
          goodExample e = true := fun e he => (List.mem_filter.mp he).2
      simp only [transStmtsOf, hm, hM, if_true, List.countP_cons]
      refine ⟨?_, ?_, ?_⟩
      · rw [countP_map_exStmts_false _ _ _
          (fun e _ hg => (stmtKind_exStmtOf _ e hg).2.1) hgood]
        simp [(stmtKind_trans _ _ _ _).2.1]
      · rw [countP_map_exStmts_false _ _ _
          (fun e _ hg => (stmtKind_exStmtOf _ e hg).2.2) hgood]
        simp [(stmtKind_trans _ _ _ _).1]
      · rw [countP_map_exStmts_true _ _ _
          (fun e _ hg => (stmtKind_exStmtOf _ e hg).1) hgood]
        simp [(stmtKind_trans _ _ _ _).2.2]
  | null => simp [transStmtsOf, hasMeaning]
  | bool b => simp [transStmtsOf, hasMeaning]
  | num n => simp [transStmtsOf, hasMeaning]
  | str s => simp [transStmtsOf, hasMeaning]
  | arr xs => simp [transStmtsOf, hasMeaning]

lemma sum_map_ite_countP (p : JValue → Bool) (l : List JValue) :
    (l.map (fun a => if p a = true then (1 : Nat) else 0)).sum = l.countP p := by
  induction l with
  | nil => simp
  | cons a l ih =>
    by_cases h : p a = true <;> simp [List.countP_cons, h, ih] <;> omega

lemma counts_word_and_blocks (wsub : String) (ts : List JValue) (a b c d : String) :
    ((wordInsertStmt a b c d :: (ts.map (transStmtsOf wsub)).flatten).countP
        (fun s => hasPrefixStr "INSERT OR IGNORE" s)) = 1
    ∧ ((wordInsertStmt a b c d :: (ts.map (transStmtsOf wsub)).flatten).countP
        (fun s => hasPrefixStr "INSERT INTO word_translations" s)) = ts.countP hasMeaning
    ∧ ((wordInsertStmt a b c d :: (ts.map (transStmtsOf wsub)).flatten).countP
        (fun s => hasPrefixStr "INSERT INTO translation_examples" s))
        = (ts.map (fun t => if hasMeaning t = true
            then ((examplesOf t).filter goodExample).length else 0)).sum := by
  refine ⟨?_, ?_, ?_⟩
  all_goals rw [List.countP_cons, List.countP_flatten, List.map_map]
  · have hz : (ts.map (List.countP (fun s => hasPrefixStr "INSERT OR IGNORE" s) ∘
        transStmtsOf wsub)).sum = 0 := by
      apply List.sum_eq_zero
      intro x hx
      obtain ⟨t, _, rfl⟩ := List.mem_map.mp hx
      exact (countP_transStmtsOf wsub t).1
    rw [hz]
    simp [(stmtKind_word a b c d).1]
  · have hmap : ts.map (List.countP (fun s => hasPrefixStr "INSERT INTO word_translations" s) ∘
        transStmtsOf wsub) = ts.map (fun t => if hasMeaning t = true then (1 : Nat) else 0) := by
      apply List.map_congr_left
      intro t _
      exact (countP_transStmtsOf wsub t).2.1
    rw [hmap, sum_map_ite_countP]
    simp [(stmtKind_word a b c d).2.1]
  · have hmap : ts.map (List.countP (fun s => hasPrefixStr "INSERT INTO translation_examples" s) ∘
        transStmtsOf wsub) = ts.map (fun t => if hasMeaning t = true
          then ((examplesOf t).filter goodExample).length else 0) := by
      apply List.map_congr_left
      intro t _
      exact (countP_transStmtsOf wsub t).2.2
    rw [hmap]
    simp [(stmtKind_word a b c d).2.2]

/-- C4: for every successfully parsed model response (a JSON object whose
`word_info` is an object and whose `translations` is a list of well-formed
translation objects), `extract_and_generate_sql_for_word` succeeds and
appends exactly one `INSERT OR IGNORE` statement for the word row, exactly
one `INSERT` statement per translation whose meaning is present and
non-null — a translation with a missing or null meaning is skipped with
one logged entry instead of aborting the word — and exactly one `INSERT`
statement per example of a processed translation whose source and target
text are both non-empty. -/
theorem extract_sql_statement_counts (fields wf : List (String × JValue)) (ts : List JValue)
    (w : String)
    (hwi : lookupField fields "word_info" = some (JValue.obj wf))
    (hts : lookupField fields "translations" = some (JValue.arr ts))
    (hwf : ts.all wfTranslation = true) :
    (extract_and_generate_sql_for_word (JValue.obj fields) w).ok = true
    ∧ (extract_and_generate_sql_for_word (JValue.obj fields) w).stmts.countP
        (fun s => hasPrefixStr "INSERT OR IGNORE" s) = 1
    ∧ (extract_and_generate_sql_for_word (JValue.obj fields) w).stmts.countP
        (fun s => hasPrefixStr "INSERT INTO word_translations" s) = ts.countP hasMeaning
    ∧ (extract_and_generate_sql_for_word (JValue.obj fields) w).stmts.countP
        (fun s => hasPrefixStr "INSERT INTO translation_examples" s)
        = (ts.map (fun t => if hasMeaning t = true
            then ((examplesOf t).filter goodExample).length else 0)).sum
    ∧ (extract_and_generate_sql_for_word (JValue.obj fields) w).logs
        = ts.countP (fun t => !(hasMeaning t)) := by
  simp only [extract_and_generate_sql_for_word]
  rw [hwi]
  dsimp only
  rw [hts]
  dsimp only [toPy, pyIter]
  rw [genTranslations_spec _ _ _ _ hwf]
  dsimp only
  rw [List.singleton_append]
  refine ⟨rfl, ?_, ?_, ?_, ?_⟩
  · exact (counts_word_and_blocks _ ts _ _ _ _).1
  · exact (counts_word_and_blocks _ ts _ _ _ _).2.1
  · exact (counts_word_and_blocks _ ts _ _ _ _).2.2
  · simp

/-! ## Claim theorems: filtering, pause schedule, extraction example,
escaping -/

/-- C1: `get_new_words_not_in_db` returns exactly the input words whose
lowercased form is not among the lowercased stored `queried_word` values,
in input order (a `filter` of the input list), and returns the input list
unchanged when the `words` table is missing. -/
theorem get_new_words_spec (words rows : List String) :
    get_new_words_not_in_db words (some rows)
        = words.filter (fun w => !((rows.map pyLower).contains (pyLower w)))
    ∧ get_new_words_not_in_db words none = words := by
  constructor
  · cases words with
    | nil => simp [get_new_words_not_in_db]
    | cons a l => simp [get_new_words_not_in_db]
  · cases words with
    | nil => simp [get_new_words_not_in_db]
    | cons a l => simp [get_new_words_not_in_db]

/-- C5 counterexample: in a run over exactly ten words, word 10's index is
a multiple of ten and yet no pause follows it (line 370 also requires more
than ten words), so the claimed equivalence fails at `numWords = 10`,
`i = 10`. -/
theorem pause_not_iff_multiple_of_ten :
    ¬ ((10 ∈ pausePositions 10) ↔ 10 % 10 = 0) := by decide

/-- C5 amended: the pause runs after the word with one-based index `k` iff
`k` is a positive multiple of ten within the run and the total number of
words to process exceeds ten. -/
theorem pausePositions_spec (numWords k : Nat) :
    k ∈ pausePositions numWords
      ↔ (k % 10 = 0 ∧ 1 ≤ k ∧ k ≤ numWords ∧ 10 < numWords) := by
  simp only [pausePositions, List.mem_map, List.mem_filter, List.mem_range, mainLoopPauseCond,
    Bool.and_eq_true, beq_iff_eq, decide_eq_true_eq, gt_iff_lt]
  constructor
  · rintro ⟨i, ⟨hi, h10, hn⟩, rfl⟩
    omega
  · rintro ⟨h10, h1, hk, hn⟩
    exact ⟨k - 1, ⟨by omega, by omega, hn⟩, by omega⟩

/-- C6: word extraction tokenizes with the Latin-plus-German-diacritics
pattern, lowercases, deduplicates and sorts; on the input
`"Der Hund läuft. der HUND"` it yields exactly `["der", "hund", "läuft"]`. -/
theorem extraction_concrete_example :
    read_and_extract_words_from_text_file (some "Der Hund läuft. der HUND")
      = ["der", "hund", "läuft"] := by decide

lemma replaceF_single_quote (l : List Char) (fuel : Nat) (h : l.length ≤ fuel) :
    replaceF ['\''] ['\'', '\''] fuel l
      = l.flatMap (fun c => if c = '\'' then ['\'', '\''] else [c]) := by
  induction fuel generalizing l with
  | zero =>
    cases l with
    | nil => simp [replaceF]
    | cons c rest => simp at h
  | succ n ih =>
    cases l with
    | nil => simp [replaceF]
    | cons c rest =>
      by_cases hc : c = '\''
      · subst hc
        simp [replaceF, List.isPrefixOf, ih rest (by simpa using h)]
      · simp [replaceF, List.isPrefixOf, hc, Ne.symm hc, ih rest (by simpa using h)]

/-- C7: `escape_sql_string` renders `None` as the SQL `NULL` literal and
every other value as its string form in single quotes with each embedded
single quote doubled; in particular `O'Brien` renders as `'O''Brien'`. -/
theorem escape_sql_string_spec :
    escape_sql_string none = "NULL"
    ∧ (∀ v : JValue, escape_sql_string (some v)
        = "'" ++ String.mk ((pyStr v).data.flatMap
            (fun c => if c = '\'' then ['\'', '\''] else [c])) ++ "'")
    ∧ escape_sql_string (some (JValue.str "O'Brien")) = "'O''Brien'" := by
  refine ⟨rfl, ?_, by decide⟩
  intro v
  show "'" ++ pyReplace (pyStr v) "'" "''" ++ "'" = _
  have hrep : pyReplace (pyStr v) "'" "''"
      = String.mk ((pyStr v).data.flatMap (fun c => if c = '\'' then ['\'', '\''] else [c])) := by
    show String.mk (replaceF ['\''] ['\'', '\''] (pyStr v).data.length (pyStr v).data) = _
    rw [replaceF_single_quote _ _ (Nat.le_refl _)]
  rw [hrep]

/-! ## Concrete response used to witness the SQL-generation claim -/

def witTrans1 : JValue := JValue.obj
  [("meaning", JValue.str "house"),
   ("examples", JValue.arr
     [JValue.obj [("source", JValue.str "Das |Haus| ist groß"),
                  ("target", JValue.str "the house")],
      JValue.obj [("source", JValue.str ""), ("target", JValue.str "x")]])]

def witTrans2 : JValue := JValue.obj [("additionalInfo", JValue.str "colloquial")]

def witTrans3 : JValue := JValue.obj [("meaning", JValue.str "home")]

def witFields : List (String × JValue) :=
  [("word_info", JValue.obj [("base_form", JValue.str "Haus")]),
   ("translations", JValue.arr [witTrans1, witTrans2, witTrans3])]

theorem extract_sql_statement_counts_witness :
    (extract_and_generate_sql_for_word (JValue.obj witFields) "haus").ok = true
    ∧ (extract_and_generate_sql_for_word (JValue.obj witFields) "haus").stmts.countP
        (fun s => hasPrefixStr "INSERT OR IGNORE" s) = 1
    ∧ (extract_and_generate_sql_for_word (JValue.obj witFields) "haus").stmts.countP
        (fun s => hasPrefixStr "INSERT INTO word_translations" s) = 2
    ∧ (extract_and_generate_sql_for_word (JValue.obj witFields) "haus").stmts.countP
        (fun s => hasPrefixStr "INSERT INTO translation_examples" s) = 1
    ∧ (extract_and_generate_sql_for_word (JValue.obj witFields) "haus").logs = 1 :=
  extract_sql_statement_counts witFields [("base_form", JValue.str "Haus")]
    [witTrans1, witTrans2, witTrans3] "haus" rfl rfl (by decide)

/-! ## Helper lemmas: the retry loop -/

/-- Replacing an exception outcome with a parse failure. -/
def exceptionAsParseFailure : AttemptOutcome → AttemptOutcome
  | AttemptOutcome.exception => AttemptOutcome.parseFailure
  | o => o

lemma processWordLoop_step_retryable (o : Nat → AttemptOutcome) (w : String)
    (fuel att errs succ slept fp : Nat) (h : retryable (o (att + 1)) = true) :
    processWordLoop o w (fuel + 1) att errs succ slept fp =
      if att + 1 < MAX_RETRIES then
        processWordLoop o w fuel (att + 1) errs succ (slept + RETRY_DELAY_SECONDS) (fp + 1)
      else ⟨false, att + 1, errs + 1, succ, slept, fp + 1⟩ := by
  cases ho : o (att + 1) with
  | empty => simp [processWordLoop, ho]
  | parseFailure => simp [processWordLoop, ho]
  | exception => simp [processWordLoop, ho]
  | parsed j => rw [ho] at h; simp [retryable] at h

lemma processWordLoop_step_parsed (o : Nat → AttemptOutcome) (w : String)
    (fuel att errs succ slept fp : Nat) (j : JValue)
    (ho : o (att + 1) = AttemptOutcome.parsed j) :
    processWordLoop o w (fuel + 1) att errs succ slept fp =
      if (extract_and_generate_sql_for_word j w).ok then
        ⟨true, att + 1, errs + (extract_and_generate_sql_for_word j w).logs, succ + 1, slept, fp⟩
      else
        ⟨false, att + 1, errs + (extract_and_generate_sql_for_word j w).logs, succ, slept, fp⟩ := by
  simp [processWordLoop, ho]

/-- Exhausting all five attempts with retryable outcomes: failure, exactly
one error-log entry, four sleeps, five per-attempt failure messages. -/
lemma process_all_retryable (o : Nat → AttemptOutcome) (w : String)
    (h : ∀ n, 1 ≤ n → n ≤ MAX_RETRIES → retryable (o n) = true) :
    process_word_with_retries o w
      = ⟨false, MAX_RETRIES, 1, 0, (MAX_RETRIES - 1) * RETRY_DELAY_SECONDS, MAX_RETRIES⟩ := by
  have s1 := processWordLoop_step_retryable o w 4 0 0 0 0 0 (h 1 (by decide) (by decide))
  have s2 := processWordLoop_step_retryable o w 3 1 0 0 5 1 (h 2 (by decide) (by decide))
  have s3 := processWordLoop_step_retryable o w 2 2 0 0 10 2 (h 3 (by decide) (by decide))
  have s4 := processWordLoop_step_retryable o w 1 3 0 0 15 3 (h 4 (by decide) (by decide))
  have s5 := processWordLoop_step_retryable o w 0 4 0 0 20 4 (h 5 (by decide) (by decide))
  norm_num [MAX_RETRIES, RETRY_DELAY_SECONDS] at s1 s2 s3 s4 s5
  show processWordLoop o w 5 0 0 0 0 0 = ⟨false, 5, 1, 0, 20, 5⟩
  rw [s1, s2, s3, s4, s5]

lemma processWordLoop_exceptionAsParseFailure (o : Nat → AttemptOutcome) (w : String) :
    ∀ fuel att errs succ slept fp,
      processWordLoop (fun n => exceptionAsParseFailure (o n)) w fuel att errs succ slept fp
        = processWordLoop o w fuel att errs succ slept fp := by
  intro fuel
  induction fuel with
  | zero => intro att errs succ slept fp; rfl
  | succ f ih =>
    intro att errs succ slept fp
    set g : Nat → AttemptOutcome := fun n => exceptionAsParseFailure (o n) with hg
    have hga : g (att + 1) = exceptionAsParseFailure (o (att + 1)) := rfl
    cases ho : o (att + 1) with
    | empty =>
      have he : g (att + 1) = AttemptOutcome.empty := by
        simp [hga, ho, exceptionAsParseFailure]
      simp only [processWordLoop, he, ho, ih]
    | parseFailure =>
      have he : g (att + 1) = AttemptOutcome.parseFailure := by
        simp [hga, ho, exceptionAsParseFailure]
      simp only [processWordLoop, he, ho, ih]
    | exception =>
      have he : g (att + 1) = AttemptOutcome.parseFailure := by
        simp [hga, ho, exceptionAsParseFailure]
      simp only [processWordLoop, he, ho, ih]
    | parsed j =>
      have he : g (att + 1) = AttemptOutcome.parsed j := by
        simp [hga, ho, exceptionAsParseFailure]
      simp only [processWordLoop, he, ho, ih]

/-- C2: when every attempt ends in an empty response, a parse failure or
an unexpected exception, `process_word_with_retries` performs exactly
`MAX_RETRIES` (5) attempts, returns failure, and writes exactly one
error-log entry for the word (and no successful-responses entry, sleeping
the fixed delay before each of the four retries). -/
theorem retry_exhaustion_spec (o : Nat → AttemptOutcome) (w : String)
    (h : ∀ n, 1 ≤ n → n ≤ MAX_RETRIES → retryable (o n) = true) :
    process_word_with_retries o w
      = ⟨false, MAX_RETRIES, 1, 0, (MAX_RETRIES - 1) * RETRY_DELAY_SECONDS, MAX_RETRIES⟩ :=
  process_all_retryable o w h

theorem retry_exhaustion_spec_witness :
    process_word_with_retries (fun _ => AttemptOutcome.empty) "wort"
      = ⟨false, 5, 1, 0, 20, 5⟩ :=
  retry_exhaustion_spec (fun _ => AttemptOutcome.empty) "wort" (fun _ _ _ => rfl)

/-- C3: an unexpected exception during an attempt is caught and handled
exactly like a parse failure — replacing every exception outcome by a
parse failure leaves the run's result, attempt count, error-log entries,
sleeps and per-attempt failure messages unchanged — and a word whose every
attempt raises an exception prints one failure message per attempt, sleeps
the fixed delay before each non-final attempt, and fails terminally with
one logged error once the maximum is reached. -/
theorem exception_retry_like_parse_failure (o : Nat → AttemptOutcome) (w : String) :
    process_word_with_retries (fun n => exceptionAsParseFailure (o n)) w
        = process_word_with_retries o w
    ∧ ((∀ n, 1 ≤ n → n ≤ MAX_RETRIES → o n = AttemptOutcome.exception) →
        process_word_with_retries o w
          = ⟨false, MAX_RETRIES, 1, 0, (MAX_RETRIES - 1) * RETRY_DELAY_SECONDS, MAX_RETRIES⟩) := by
  constructor
  · exact processWordLoop_exceptionAsParseFailure o w MAX_RETRIES 0 0 0 0 0
  · intro hexn
    exact process_all_retryable o w (fun n h1 h2 => by simp [hexn n h1 h2, retryable])

theorem exception_retry_like_parse_failure_witness :
    process_word_with_retries (fun _ => AttemptOutcome.exception) "wort"
      = ⟨false, 5, 1, 0, 20, 5⟩ :=
  (exception_retry_like_parse_failure (fun _ => AttemptOutcome.exception) "wort").2
    (fun _ _ _ => rfl)

/-- C9: when the first `a - 1` attempts are retryable failures and attempt
`a` parses successfully but SQL generation fails, the run returns failure
immediately on attempt `a`: no further attempts are consumed, no sleep
follows attempt `a`, nothing is written to the successful-responses log,
and the run's only error-log entries are those SQL generation itself
wrote. -/
theorem sql_failure_stops_retries (o : Nat → AttemptOutcome) (w : String) (j : JValue)
    (a : Nat) (ha1 : 1 ≤ a) (ha2 : a ≤ MAX_RETRIES)
    (hpre : ∀ n, 1 ≤ n → n < a → retryable (o n) = true)
    (hj : o a = AttemptOutcome.parsed j)
    (hfail : (extract_and_generate_sql_for_word j w).ok = false) :
    process_word_with_retries o w
      = ⟨false, a, (extract_and_generate_sql_for_word j w).logs, 0,
          (a - 1) * RETRY_DELAY_SECONDS, a - 1⟩ := by
  have hM : MAX_RETRIES = 5 := rfl
  rw [hM] at ha2
  interval_cases a
  · have s1 := processWordLoop_step_parsed o w 4 0 0 0 0 0 j hj
    norm_num [hfail] at s1
    show processWordLoop o w 5 0 0 0 0 0
      = ⟨false, 1, (extract_and_generate_sql_for_word j w).logs, 0, 0, 0⟩
    rw [s1]
  · have s1 := processWordLoop_step_retryable o w 4 0 0 0 0 0 (hpre 1 (by decide) (by decide))
    have s2 := processWordLoop_step_parsed o w 3 1 0 0 5 1 j hj
    norm_num [MAX_RETRIES, RETRY_DELAY_SECONDS] at s1
    norm_num [hfail] at s2
    show processWordLoop o w 5 0 0 0 0 0
      = ⟨false, 2, (extract_and_generate_sql_for_word j w).logs, 0, 5, 1⟩
    rw [s1, s2]
  · have s1 := processWordLoop_step_retryable o w 4 0 0 0 0 0 (hpre 1 (by decide) (by decide))
    have s2 := processWordLoop_step_retryable o w 3 1 0 0 5 1 (hpre 2 (by decide) (by decide))
    have s3 := processWordLoop_step_parsed o w 2 2 0 0 10 2 j hj
    norm_num [MAX_RETRIES, RETRY_DELAY_SECONDS] at s1 s2
    norm_num [hfail] at s3
    show processWordLoop o w 5 0 0 0 0 0
      = ⟨false, 3, (extract_and_generate_sql_for_word j w).logs, 0, 10, 2⟩
    rw [s1, s2, s3]
  · have s1 := processWordLoop_step_retryable o w 4 0 0 0 0 0 (hpre 1 (by decide) (by decide))
    have s2 := processWordLoop_step_retryable o w 3 1 0 0 5 1 (hpre 2 (by decide) (by decide))
    have s3 := processWordLoop_step_retryable o w 2 2 0 0 10 2 (hpre 3 (by decide) (by decide))
    have s4 := processWordLoop_step_parsed o w 1 3 0 0 15 3 j hj
    norm_num [MAX_RETRIES, RETRY_DELAY_SECONDS] at s1 s2 s3
    norm_num [hfail] at s4
    show processWordLoop o w 5 0 0 0 0 0
      = ⟨false, 4, (extract_and_generate_sql_for_word j w).logs, 0, 15, 3⟩
    rw [s1, s2, s3, s4]
  · have s1 := processWordLoop_step_retryable o w 4 0 0 0 0 0 (hpre 1 (by decide) (by decide))
    have s2 := processWordLoop_step_retryable o w 3 1 0 0 5 1 (hpre 2 (by decide) (by decide))
    have s3 := processWordLoop_step_retryable o w 2 2 0 0 10 2 (hpre 3 (by decide) (by decide))
    have s4 := processWordLoop_step_retryable o w 1 3 0 0 15 3 (hpre 4 (by decide) (by decide))
    have s5 := processWordLoop_step_parsed o w 0 4 0 0 20 4 j hj
    norm_num [MAX_RETRIES, RETRY_DELAY_SECONDS] at s1 s2 s3 s4
    norm_num [hfail] at s5
    show processWordLoop o w 5 0 0 0 0 0
      = ⟨false, 5, (extract_and_generate_sql_for_word j w).logs, 0, 20, 4⟩
    rw [s1, s2, s3, s4, s5]

theorem sql_failure_stops_retries_witness :
    process_word_with_retries (fun _ => AttemptOutcome.parsed JValue.null) "wort"
      = ⟨false, 1, 1, 0, 0, 0⟩ :=
  sql_failure_stops_retries (fun _ => AttemptOutcome.parsed JValue.null) "wort" JValue.null 1
    (by decide) (by decide) (fun n h1 h2 => absurd h2 (by omega)) rfl rfl

/-! ## Helper lemmas: the markup transform -/

lemma takeWhile_no_bar (X B' : List Char) (hXp : ∀ c ∈ X, ¬(c = '|')) :
    (X ++ '|' :: B').takeWhile (fun d => d ≠ '|') = X := by
  induction X with
  | nil => simp [List.takeWhile_cons]
  | cons x xs ih =>
    have hx : ¬(x = '|') := hXp x (List.mem_cons_self x xs)
    have ih' := ih (fun c hc => hXp c (List.mem_cons_of_mem _ hc))
    simp only [List.cons_append, List.takeWhile_cons, hx, decide_not, decide_eq_false,
      Bool.not_false, if_true]
    simpa using ih'

lemma dropWhile_no_bar (X B' : List Char) (hXp : ∀ c ∈ X, ¬(c = '|')) :
    (X ++ '|' :: B').dropWhile (fun d => d ≠ '|') = '|' :: B' := by
  induction X with
  | nil => simp [List.dropWhile_cons]
  | cons x xs ih =>
    have hx : ¬(x = '|') := hXp x (List.mem_cons_self x xs)
    have ih' := ih (fun c hc => hXp c (List.mem_cons_of_mem _ hc))
    simp only [List.cons_append, List.dropWhile_cons, hx, decide_not, decide_eq_false,
      Bool.not_false, if_true]
    simpa using ih'

lemma dropWhile_bar_shape (rest : List Char) :
    rest.dropWhile (fun d => d ≠ '|') = []
    ∨ ∃ tail, rest.dropWhile (fun d => d ≠ '|') = '|' :: tail := by
  induction rest with
  | nil => exact Or.inl rfl
  | cons c cs ih =>
    by_cases hc : c = '|'
    · exact Or.inr ⟨cs, by simp [List.dropWhile_cons, hc]⟩
    · simpa [List.dropWhile_cons, hc] using ih

lemma transformCharsF_congr : ∀ (f1 : Nat) (l : List Char) (f2 : Nat),
    l.length ≤ f1 → l.length ≤ f2 →
    transformCharsF f1 l = transformCharsF f2 l := by
  intro f1
  induction f1 using Nat.strong_induction_on with
  | _ f1 ihf =>
    intro l f2 h1 h2
    cases l with
    | nil => cases f1 <;> cases f2 <;> rfl
    | cons c rest =>
      cases f1 with
      | zero => simp at h1
      | succ f1' =>
        cases f2 with
        | zero => simp at h2
        | succ f2' =>
          simp only [transformCharsF]
          by_cases hc : c = '|'
          · simp only [hc, if_pos]
            rcases dropWhile_bar_shape rest with hdrop | ⟨tail, hdrop⟩
            · rw [hdrop]
            · rw [hdrop]
              have htail : tail.length + 1 ≤ rest.length := by
                have := (List.dropWhile_sublist (l := rest)
                  (fun d => decide (d ≠ '|'))).length_le
                rw [hdrop] at this
                simpa using this
              have hrest1 : rest.length ≤ f1' := by simpa using h1
              have hrest2 : rest.length ≤ f2' := by simpa using h2
              by_cases hgap : (rest.takeWhile (fun d => d ≠ '|')).isEmpty = true
              · simp only [hgap, if_true]
                rw [ihf f1' (Nat.lt_succ_self _) rest f2' hrest1 hrest2]
              · simp only [hgap, if_false]
                rw [ihf f1' (Nat.lt_succ_self _) tail f2' (by omega) (by omega)]
                simp
          · simp only [hc, if_false]
            rw [ihf f1' (Nat.lt_succ_self _) rest f2' (by simpa using h1) (by simpa using h2)]

lemma transformCharsF_span (A X B : List Char) (hA : ∀ c ∈ A, ¬(c = '|'))
    (hX : X ≠ []) (hXp : ∀ c ∈ X, ¬(c = '|')) :
    ∀ fuel, A.length + (X.length + (B.length + 2)) ≤ fuel →
      transformCharsF fuel (A ++ '|' :: (X ++ '|' :: B))
        = A ++ ("<em>".data ++ (X ++ ("</em>".data ++ transformCharsF B.length B))) := by
  induction A with
  | nil =>
    intro fuel hf
    cases fuel with
    | zero => simp at hf
    | succ f =>
      show transformCharsF (f + 1) ('|' :: (X ++ '|' :: B)) = _
      simp only [transformCharsF, if_pos]
      rw [takeWhile_no_bar X B hXp, dropWhile_no_bar X B hXp]
      have hXe : X.isEmpty = false := by
        cases X with
        | nil => exact absurd rfl hX
        | cons y ys => rfl
      simp only [hXe, Bool.false_eq_true, if_false]
      rw [transformCharsF_congr f B B.length (by simp at hf; omega) (Nat.le_refl _)]
      simp [List.append_assoc]
  | cons a A' ih =>
    intro fuel hf
    cases fuel with
    | zero => simp at hf
    | succ f =>
      have ha : ¬(a = '|') := hA a (List.mem_cons_self a A')
      show transformCharsF (f + 1) (a :: (A' ++ '|' :: (X ++ '|' :: B))) = _
      simp only [transformCharsF, ha, if_false]
      rw [ih (fun c hc => hA c (List.mem_cons_of_mem _ hc)) f (by simp at hf ⊢; omega)]
      simp

/-- C8: `transform_example_text` rewrites an inline-markup span `|x|` (x
non-empty, pipe-free) to `<em>x</em>` — compositionally: with a pipe-free
prefix `a`, transforming `a|x|b` yields `a<em>x</em>` followed by the
transform of `b` — in particular `"Das |Haus| ist groß"` becomes
`"Das <em>Haus</em> ist groß"`; and the transform is applied to an
example's source and target text before SQL escaping in the emitted
`INSERT` statement. -/
theorem transform_markup_spec (a x b : String)
    (hx : x ≠ "") (hxp : ∀ c ∈ x.data, ¬(c = '|')) (hap : ∀ c ∈ a.data, ¬(c = '|')) :
    transformString (a ++ "|" ++ x ++ "|" ++ b)
        = a ++ "<em>" ++ x ++ "</em>" ++ transformString b
    ∧ transform_example_text (some "Das |Haus| ist groß")
        = some "Das <em>Haus</em> ist groß"
    ∧ (∀ (tid : String) (st : GenState) (s t : String), s ≠ "" → t ≠ "" →
        genExamples tid st [JValue.obj [("source", JValue.str s), ("target", JValue.str t)]]
          = (⟨st.stmts ++ [exampleInsertStmt tid
              (escape_sql_string (some (JValue.str (transformString s))))
              (escape_sql_string (some (JValue.str (transformString t))))], st.logs⟩, true)) := by
  refine ⟨?_, by decide, ?_⟩
  · have hdata : (a ++ "|" ++ x ++ "|" ++ b).data
        = a.data ++ '|' :: (x.data ++ '|' :: b.data) := by
      simp [String.data_append]
    have hX : x.data ≠ [] := fun h => hx (String.ext h)
    apply String.ext
    show transformCharsF (a ++ "|" ++ x ++ "|" ++ b).data.length
        (a ++ "|" ++ x ++ "|" ++ b).data = _
    rw [hdata]
    rw [transformCharsF_span a.data x.data b.data hap hX hxp _
      (by simp [List.length_append]; omega)]
    show _ = (a ++ "<em>" ++ x ++ "</em>" ++ transformString b).data
    simp [String.data_append, transformString]
  · intro tid st s t hs ht
    have hsrc : pyGetField [("source", JValue.str s), ("target", JValue.str t)] "source"
        = some (JValue.str s) := rfl
    have htgt : pyGetField [("source", JValue.str s), ("target", JValue.str t)] "target"
        = some (JValue.str t) := rfl
    simp [genExamples, hsrc, htgt, pyTruthyOpt, pyTruthy, hs, ht]

theorem transform_markup_spec_witness :
    transformString ("Das " ++ "|" ++ "Haus" ++ "|" ++ " ist groß")
      = "Das " ++ "<em>" ++ "Haus" ++ "</em>" ++ transformString " ist groß" :=
  (transform_markup_spec "Das " "Haus" " ist groß" (by decide) (by decide) (by decide)).1

/-! ## Helper lemmas: extraction invariants -/

/-- The letter set of the extracted words: lowercase ASCII letters and
ä, ö, ü, ß. -/
def isLowerClassChar (c : Char) : Bool :=
  (97 ≤ c.toNat && c.toNat ≤ 122) || (c == 'ä' || c == 'ö' || c == 'ü' || c == 'ß')

lemma toNat_ofNat_valid {n : Nat} (h : n.isValidChar) : (Char.ofNat n).toNat = n := by
  simp [Char.ofNat, dif_pos h, Char.ofNatAux, Char.toNat, UInt32.toNat]

lemma pyLowerChar_lower (c : Char) (h : isClassChar (pyLowerChar c) = true) :
    isLowerClassChar (pyLowerChar c) = true := by
  unfold pyLowerChar at h ⊢
  by_cases h1 : 65 ≤ c.toNat ∧ c.toNat ≤ 90
  · rw [if_pos h1] at h ⊢
    have ht : (Char.ofNat (c.toNat + 32)).toNat = c.toNat + 32 :=
      toNat_ofNat_valid (Or.inl (by omega))
    simp [isLowerClassChar, ht]
    omega
  · rw [if_neg h1] at h ⊢
    by_cases h2 : c = 'Ä'
    · rw [if_pos h2] at h ⊢
      decide
    · rw [if_neg h2] at h ⊢
      by_cases h3 : c = 'Ö'
      · rw [if_pos h3] at h ⊢
        decide
      · rw [if_neg h3] at h ⊢
        by_cases h4 : c = 'Ü'
        · rw [if_pos h4] at h ⊢
          decide
        · rw [if_neg h4] at h ⊢
          have hval : ∀ d : Char, (c = d) ↔ (c.toNat = d.toNat) :=
            fun d => ⟨fun hcd => by rw [hcd], fun hcd => Char.eq_of_val_eq (UInt32.ext hcd)⟩
          simp only [isClassChar, Bool.or_eq_true, Bool.and_eq_true,
            decide_eq_true_eq, beq_iff_eq, hval,
            show ('ä' : Char).toNat = 228 from rfl, show ('ö' : Char).toNat = 246 from rfl,
            show ('ü' : Char).toNat = 252 from rfl, show ('ß' : Char).toNat = 223 from rfl,
            show ('Ä' : Char).toNat = 196 from rfl, show ('Ö' : Char).toNat = 214 from rfl,
            show ('Ü' : Char).toNat = 220 from rfl] at h
          simp only [isLowerClassChar, Bool.or_eq_true, Bool.and_eq_true,
            decide_eq_true_eq, beq_iff_eq, hval,
            show ('ä' : Char).toNat = 228 from rfl, show ('ö' : Char).toNat = 246 from rfl,
            show ('ü' : Char).toNat = 252 from rfl, show ('ß' : Char).toNat = 223 from rfl]
          rw [hval] at h2 h3 h4
          simp only [show ('Ä' : Char).toNat = 196 from rfl,
            show ('Ö' : Char).toNat = 214 from rfl,
            show ('Ü' : Char).toNat = 220 from rfl] at h2 h3 h4
          omega

lemma lexLt_trans : ∀ a b c : List Char,
    lexLt a b = true → lexLt b c = true → lexLt a c = true := by
  intro a
  induction a with
  | nil =>
    intro b c hab hbc
    cases b with
    | nil => simp [lexLt] at hab
    | cons y ys =>
      cases c with
      | nil => simp [lexLt] at hbc
      | cons z zs => simp [lexLt]
  | cons x xs ih =>
    intro b c hab hbc
    cases b with
    | nil => simp [lexLt] at hab
    | cons y ys =>
      cases c with
      | nil => simp [lexLt] at hbc
      | cons z zs =>
        simp only [lexLt] at hab hbc ⊢
        by_cases hxy : x < y
        · by_cases hyz : y < z
          · simp [lt_trans hxy hyz]
          · by_cases hzy : z < y
            · simp [hyz, hzy] at hbc
            · have hyzeq : y = z := le_antisymm (not_lt.mp hzy) (not_lt.mp hyz)
              subst hyzeq
              simp [hxy]
        · by_cases hyx : y < x
          · simp [hxy, hyx] at hab
          · have hxyeq : x = y := le_antisymm (not_lt.mp hyx) (not_lt.mp hxy)
            subst hxyeq
            simp only [lt_irrefl, if_false] at hab
            by_cases hxz : x < z
            · simp [hxz]
            · by_cases hzx : z < x
              · simp [hxz, hzx] at hbc
              · simp only [hxz, hzx, if_false]
                simp only [hxz, hzx, if_false] at hbc
                exact ih ys zs hab hbc

lemma lexLt_connex : ∀ a b : List Char,
    lexLt a b = false → lexLt b a = false → a = b := by
  intro a
  induction a with
  | nil =>
    intro b h1 h2
    cases b with
    | nil => rfl
    | cons y ys => simp [lexLt] at h1
  | cons x xs ih =>
    intro b h1 h2
    cases b with
    | nil => simp [lexLt] at h2
    | cons y ys =>
      simp only [lexLt] at h1 h2
      by_cases hxy : x < y
      · simp [hxy] at h1
      · by_cases hyx : y < x
        · simp [hyx] at h2
        · have hxyeq : x = y := le_antisymm (not_lt.mp hyx) (not_lt.mp hxy)
          subst hxyeq
          simp only [lt_irrefl, if_false] at h1 h2
          rw [ih ys h1 h2]

lemma lexLt_irrefl : ∀ a : List Char, lexLt a a = false := by
  intro a
  induction a with
  | nil => rfl
  | cons x xs ih => simp [lexLt, lt_irrefl, ih]

instance : IsTrans String StrLe := ⟨by
  intro a b c hab hbc
  unfold StrLe strLeB at hab hbc ⊢
  rw [Bool.not_eq_true'] at hab hbc ⊢
  by_cases h1 : lexLt b.data c.data = true
  · by_contra hca
    rw [Bool.not_eq_false] at hca
    exact absurd (lexLt_trans _ _ _ h1 hca) (by simp [hab])
  · have h1' : lexLt b.data c.data = false := by simpa using h1
    rw [show c.data = b.data from lexLt_connex _ _ hbc h1']
    exact hab⟩

instance : IsTotal String StrLe := ⟨by
  intro a b
  unfold StrLe strLeB
  by_cases h : lexLt b.data a.data = true
  · right
    rw [Bool.not_eq_true']
    by_contra hba
    rw [Bool.not_eq_false] at hba
    exact absurd (lexLt_trans _ _ _ hba h) (by simp [lexLt_irrefl])
  · left
    rw [Bool.not_eq_true']
    simpa using h⟩

lemma read_words_chain (l : List String) :
    List.Chain' (fun u v => lexLt u.data v.data = true) (pySortedStr l.dedup) := by
  have hs : List.Sorted StrLe (pySortedStr l.dedup) := List.sorted_insertionSort _ _
  have hn : (pySortedStr l.dedup).Nodup :=
    ((List.perm_insertionSort StrLe l.dedup).nodup_iff).mpr (List.nodup_dedup l)
  have hp : List.Pairwise (fun u v => StrLe u v ∧ u ≠ v) (pySortedStr l.dedup) :=
    List.Pairwise.and hs hn
  refine (hp.imp ?_).chain'
  intro u v huv
  obtain ⟨h1, h2⟩ := huv
  unfold StrLe strLeB at h1
  rw [Bool.not_eq_true'] at h1
  by_contra hcon
  have hfalse : lexLt u.data v.data = false := by
    rw [Bool.eq_false_iff]
    exact hcon
  exact h2 (String.ext (lexLt_connex _ _ hfalse h1))

lemma wordRunsF_ne_nil : ∀ (fuel : Nat) (l : List Char), ∀ r ∈ wordRunsF fuel l, r ≠ [] := by
  intro fuel
  induction fuel with
  | zero =>
    intro l r hr
    simp [wordRunsF] at hr
  | succ f ih =>
    intro l r hr
    cases l with
    | nil => simp [wordRunsF] at hr
    | cons c cs =>
      simp only [wordRunsF] at hr
      by_cases hc : isPyWordChar c = true
      · rw [if_pos hc] at hr
        rcases List.mem_cons.mp hr with rfl | hr'
        · simp
        · exact ih _ r hr'
      · rw [if_neg hc] at hr
        exact ih _ r hr

lemma wordRunsF_subset : ∀ (fuel : Nat) (l : List Char),
    ∀ r ∈ wordRunsF fuel l, ∀ c ∈ r, c ∈ l := by
  intro fuel
  induction fuel with
  | zero =>
    intro l r hr
    simp [wordRunsF] at hr
  | succ f ih =>
    intro l r hr
    cases l with
    | nil => simp [wordRunsF] at hr
    | cons c cs =>
      simp only [wordRunsF] at hr
      by_cases hc : isPyWordChar c = true
      · rw [if_pos hc] at hr
        rcases List.mem_cons.mp hr with rfl | hr'
        · intro d hd
          rcases List.mem_cons.mp hd with rfl | hd'
          · exact List.mem_cons_self _ _
          · exact List.mem_cons_of_mem _
              (List.Sublist.mem hd' (List.takeWhile_sublist _))
        · intro d hd
          exact List.mem_cons_of_mem _
            (List.Sublist.mem (ih _ r hr' d hd) (List.dropWhile_sublist _))
      · rw [if_neg hc] at hr
        intro d hd
        exact List.mem_cons_of_mem _ (ih _ r hr d hd)

/-- C10: the extracted word list is strictly sorted in ascending
code-point lexicographic order (hence duplicate-free); every element is a
non-empty string of lowercase letters a-z, ä, ö, ü, ß; and a missing file
or read error yields the empty list rather than an exception. -/
theorem extraction_invariants (file : Option String) :
    List.Chain' (fun u v => lexLt u.data v.data = true)
        (read_and_extract_words_from_text_file file)
    ∧ (∀ w ∈ read_and_extract_words_from_text_file file,
        w.data ≠ [] ∧ w.data.all isLowerClassChar = true)
    ∧ read_and_extract_words_from_text_file none = [] := by
  refine ⟨?_, ?_, rfl⟩
  · cases file with
    | none => simp [read_and_extract_words_from_text_file]
    | some text => exact read_words_chain _
  · cases file with
    | none => simp [read_and_extract_words_from_text_file]
    | some text =>
      intro w hw
      have hw1 : w ∈ findallClassWords (pyLower text) := by
        have hperm := List.perm_insertionSort StrLe (findallClassWords (pyLower text)).dedup
        exact List.mem_dedup.mp (hperm.mem_iff.mp hw)
      simp only [findallClassWords, List.mem_map, List.mem_filter] at hw1
      obtain ⟨r, ⟨hrRuns, hrClass⟩, rfl⟩ := hw1
      constructor
      · exact wordRunsF_ne_nil _ _ r hrRuns
      · rw [List.all_eq_true] at hrClass ⊢
        intro c hc
        have hClass : isClassChar c = true := hrClass c hc
        have hcmem : c ∈ text.data.map pyLowerChar :=
          wordRunsF_subset _ _ r hrRuns c hc
        obtain ⟨c0, _, rfl⟩ := List.mem_map.mp hcmem
        exact pyLowerChar_lower c0 hClass
